import Mathlib

/-!
A shallow embedding of `test-suite/dividendeuropeanoption.cpp`
(`DividendEuropeanOptionTest::testGreeks`) from the QuantLib repository.

Reals are modelled exactly as rationals; dates as integers (serial day
numbers, so that `today - 1` and `today + 1` are the one-day date shifts
used by the theta probe).  The analytic pricing engine
(`AnalyticDividendEuropeanEngine`, reached through the
`DividendVanillaOption` bound to the shared quotes), the day counter's
`yearFraction` and the month-based date offsets used to build maturities
and dividend schedules are external to this source file and enter as
parameters.
-/

/-- Option type, Option::Call / Option::Put. -/
inductive OptionType
  | call
  | put
deriving DecidableEq

/-- The mutable market snapshot read by every pricing call: the four
SimpleQuote objects (spot, qRate, rRate, vol) plus the global evaluation
date held by Settings. -/
structure MarketState where
  spot : ℚ
  q : ℚ
  r : ℚ
  v : ℚ
  evalDate : ℤ
deriving DecidableEq

/-- Embedding of spot->setValue(x). -/
def setSpot (s : MarketState) (x : ℚ) : MarketState := { s with spot := x }

/-- Embedding of qRate->setValue(x). -/
def setQ (s : MarketState) (x : ℚ) : MarketState := { s with q := x }

/-- Embedding of rRate->setValue(x). -/
def setR (s : MarketState) (x : ℚ) : MarketState := { s with r := x }

/-- Embedding of vol->setValue(x). -/
def setV (s : MarketState) (x : ℚ) : MarketState := { s with v := x }

/-- Embedding of Settings::instance().setEvaluationDate(d). -/
def setEvalDate (s : MarketState) (d : ℤ) : MarketState := { s with evalDate := d }

/-- The analytic pricing engine as seen through the option bound to the
shared market state: option.NPV(), option.delta(), etc.  Its formulas
(AnalyticDividendEuropeanEngine) are outside this source file, so it is
kept abstract; every claim here is about how the test drives it. -/
structure Engine where
  npv : MarketState → ℚ
  delta : MarketState → ℚ
  gamma : MarketState → ℚ
  theta : MarketState → ℚ
  rho : MarketState → ℚ
  vega : MarketState → ℚ

/-- A set of five greek values, used for the calculated (analytic) map,
the expected (finite-difference) map and the tolerance map. -/
structure GreekSet where
  delta : ℚ
  gamma : ℚ
  theta : ℚ
  rho : ℚ
  vega : ℚ
deriving DecidableEq

/-- Lookup by greek name, mirroring the std::map<std::string,Real> access;
an unknown key reads as the map's default 0. -/
def GreekSet.get (g : GreekSet) : String → ℚ
  | "delta" => g.delta
  | "gamma" => g.gamma
  | "theta" => g.theta
  | "rho" => g.rho
  | "vega" => g.vega
  | _ => 0

/-- The tolerance map filled at lines 76-80: 1.0e-5 for each greek. -/
def tolerance : GreekSet := ⟨1/100000, 1/100000, 1/100000, 1/100000, 1/100000⟩

/-- The keys of the calculated map in the order the comparison loop visits
them (std::map iterates its string keys in ascending order). -/
def greekNames : List String := ["delta", "gamma", "rho", "theta", "vega"]

/-- Modelled from the spec: relativeError lives in the test-suite
utilities, which are not part of this source tree.  Per the spec it is the
absolute difference divided by the scale when the scale is non-negligible,
else the absolute difference itself. -/
def relativeError (expected calculated scale : ℚ) : ℚ :=
  if scale ≠ 0 then |expected - calculated| / scale else |expected - calculated|

/-- The structured failure record assembled by the REPORT_FAILURE macro:
option type, strike, spot, dividend yield, risk-free rate, reference
date, maturity, volatility, greek name, expected value, calculated value,
error and tolerance. -/
structure Failure where
  ty : OptionType
  strike : ℚ
  spot : ℚ
  q : ℚ
  r : ℚ
  today : ℤ
  maturity : ℤ
  v : ℚ
  greekName : String
  expected : ℚ
  calculated : ℚ
  error : ℚ
  tol : ℚ
deriving DecidableEq

/-- Embedding of the REPORT_FAILURE macro's payload.  Modelled from the
spec: the macro hands the record to the external test framework's
reporter, which per the spec records the failure and lets the sweep
continue, so it is modelled as producing the structured record. -/
def reportFailure (ty : OptionType) (strike spot q r : ℚ) (today maturity : ℤ)
    (v : ℚ) (greekName : String) (expected calculated error tol : ℚ) : Failure :=
  ⟨ty, strike, spot, q, r, today, maturity, v, greekName, expected, calculated, error, tol⟩

/-- One iteration of the comparison loop at lines 192-204: look up the
expected, calculated and tolerance entries for one greek, compute the
relative error with the underlying as scale, and record a failure when it
exceeds the tolerance. -/
def checkGreek (ty : OptionType) (strike u q r : ℚ) (today maturity : ℤ)
    (v : ℚ) (es cs : GreekSet) (name : String) : List Failure :=
  let expct := es.get name
  let calcl := cs.get name
  let tol := tolerance.get name
  let error := relativeError expct calcl u
  if error > tol then
    [reportFailure ty strike u q r today maturity v name expct calcl error tol]
  else
    []

/-- The whole comparison loop: one checkGreek pass per key of the
calculated map, collecting every recorded failure. -/
def compareGreeks (ty : OptionType) (strike u q r : ℚ) (today maturity : ℤ)
    (v : ℚ) (es cs : GreekSet) : List Failure :=
  greekNames.flatMap (checkGreek ty strike u q r today maturity v es cs)

/-- Which engine evaluation a pricing call performs. -/
inductive EngineCall
  | npv
  | delta
  | gamma
  | theta
  | rho
  | vega
deriving DecidableEq

/-- The six engine evaluations made unconditionally at lines 143-148, all
at the unperturbed base state. -/
def baseCalls (s : MarketState) : List (EngineCall × MarketState) :=
  [(EngineCall.npv, s), (EngineCall.delta, s), (EngineCall.gamma, s),
   (EngineCall.theta, s), (EngineCall.rho, s), (EngineCall.vega, s)]

/-- Everything one innermost grid iteration produces: the analytic value
and greeks, the finite-difference estimates when the guard admits them,
the recorded failures, the full trace of engine evaluations in program
order, and the market state left behind for the next iteration. -/
structure PointResult where
  value : ℚ
  calculated : GreekSet
  expected : Option GreekSet
  failures : List Failure
  trace : List (EngineCall × MarketState)
  finalState : MarketState
deriving DecidableEq

/-- Embedding of one innermost grid iteration (lines 134-204): set the
four quotes, price and read all five analytic greeks, and when the base
value clears the spot * 1.0e-5 guard run the four perturbation probes
(spot for delta/gamma, rate for rho, vol for vega, evaluation date for
theta) and the comparison loop. -/
def gridPointStep (E : Engine) (yf : ℤ → ℤ → ℚ) (ty : OptionType)
    (strike : ℚ) (maturity today : ℤ) (u q r v : ℚ) : PointResult :=
  let s0 : MarketState := ⟨u, q, r, v, today⟩
  let value := E.npv s0
  let calculated : GreekSet := ⟨E.delta s0, E.gamma s0, E.theta s0, E.rho s0, E.vega s0⟩
  if value > u * (1/100000) then
    -- perturb spot and get delta and gamma
    let du := u * (1/10000)
    let s1 := setSpot s0 (u + du)
    let value_p := E.npv s1
    let delta_p := E.delta s1
    let s2 := setSpot s1 (u - du)
    let value_m := E.npv s2
    let delta_m := E.delta s2
    let s3 := setSpot s2 u
    let expDelta := (value_p - value_m) / (2 * du)
    let expGamma := (delta_p - delta_m) / (2 * du)
    -- perturb risk-free rate and get rho
    let dr := r * (1/10000)
    let s4 := setR s3 (r + dr)
    let rvalue_p := E.npv s4
    let s5 := setR s4 (r - dr)
    let rvalue_m := E.npv s5
    let s6 := setR s5 r
    let expRho := (rvalue_p - rvalue_m) / (2 * dr)
    -- perturb volatility and get vega
    let dv := v * (1/10000)
    let s7 := setV s6 (v + dv)
    let vvalue_p := E.npv s7
    let s8 := setV s7 (v - dv)
    let vvalue_m := E.npv s8
    let s9 := setV s8 v
    let expVega := (vvalue_p - vvalue_m) / (2 * dv)
    -- perturb date and get theta
    let dT := yf (today - 1) (today + 1)
    let s10 := setEvalDate s9 (today - 1)
    let tvalue_m := E.npv s10
    let s11 := setEvalDate s10 (today + 1)
    let tvalue_p := E.npv s11
    let s12 := setEvalDate s11 today
    let expTheta := (tvalue_p - tvalue_m) / dT
    let es : GreekSet := ⟨expDelta, expGamma, expTheta, expRho, expVega⟩
    { value := value
      calculated := calculated
      expected := some es
      failures := compareGreeks ty strike u q r today maturity v es calculated
      trace := baseCalls s0 ++
        [(EngineCall.npv, s1), (EngineCall.delta, s1),
         (EngineCall.npv, s2), (EngineCall.delta, s2),
         (EngineCall.npv, s4), (EngineCall.npv, s5),
         (EngineCall.npv, s7), (EngineCall.npv, s8),
         (EngineCall.npv, s10), (EngineCall.npv, s11)]
      finalState := s12 }
  else
    { value := value
      calculated := calculated
      expected := none
      failures := []
      trace := baseCalls s0
      finalState := s0 }

/-- Fuelled unfolding of the dividend-date loop at lines 111-116:
while d < exDate, record d and step six months. -/
def divDatesAux (add6M : ℤ → ℤ) (exDate : ℤ) : ℕ → ℤ → List ℤ
  | 0, _ => []
  | fuel + 1, d => if d < exDate then d :: divDatesAux add6M exDate fuel (add6M d) else []

/-- The dividend dates: from today + 3*Months, stepping 6*Months, while
strictly before the exercise date.  The fuel covers the loop because a
six-month step strictly advances the date. -/
def dividendDates (add3M add6M : ℤ → ℤ) (today exDate : ℤ) : List ℤ :=
  divDatesAux add6M exDate (exDate - add3M today).toNat (add3M today)

/-- The dividend schedule: the dates paired with the fixed cash amount
5.0 pushed alongside each date. -/
def dividendSchedule (add3M add6M : ℤ → ℤ) (today exDate : ℤ) : List (ℤ × ℚ) :=
  (dividendDates add3M add6M today exDate).map (fun d => (d, 5))

/-- The coordinates of one grid point of the sweep. -/
structure GridCoord where
  ty : OptionType
  strike : ℚ
  len : ℤ
  u : ℚ
  q : ℚ
  r : ℚ
  v : ℚ
deriving DecidableEq

/-- One grid point's coordinates together with its processing result. -/
structure GridOutcome where
  ty : OptionType
  strike : ℚ
  len : ℤ
  u : ℚ
  q : ℚ
  r : ℚ
  v : ℚ
  result : PointResult
deriving DecidableEq

/-- Forget the result, keeping the coordinates. -/
def GridOutcome.coord (o : GridOutcome) : GridCoord :=
  ⟨o.ty, o.strike, o.len, o.u, o.q, o.r, o.v⟩

/-- types[] at line 82. -/
def types : List OptionType := [OptionType.call, OptionType.put]

/-- strikes[] at line 83. -/
def strikes : List ℚ := [50, 199/2, 100, 201/2, 150]

/-- underlyings[] at line 84. -/
def underlyings : List ℚ := [100]

/-- qRates[] at line 85. -/
def qRates : List ℚ := [0, 1/10, 3/10]

/-- rRates[] at line 86. -/
def rRates : List ℚ := [1/100, 1/20, 3/20]

/-- lengths[] at line 87. -/
def lengths : List ℤ := [1, 2]

/-- vols[] at line 88. -/
def vols : List ℚ := [1/20, 1/5, 7/10]

/-- The full sweep of testGreeks: for every (type, strike, length) build
the maturity date and a fresh dividend schedule, bind the engine to them,
and run every (underlying, qRate, rRate, vol) combination through
gridPointStep.  The engine family stands for constructing the
DividendVanillaOption with its AnalyticDividendEuropeanEngine; addBase
stands for today + length * dayCounterBase. -/
def testGreeks (Efam : OptionType → ℚ → ℤ → List (ℤ × ℚ) → Engine)
    (yf : ℤ → ℤ → ℚ) (today : ℤ) (addBase : ℤ → ℤ → ℤ)
    (add3M add6M : ℤ → ℤ) : List GridOutcome :=
  types.flatMap fun ty =>
    strikes.flatMap fun strike =>
      lengths.flatMap fun len =>
        let exDate := addBase today len
        let sched := dividendSchedule add3M add6M today exDate
        let E := Efam ty strike exDate sched
        underlyings.flatMap fun u =>
          qRates.flatMap fun q =>
            rRates.flatMap fun r =>
              vols.map fun v =>
                ⟨ty, strike, len, u, q, r, v,
                 gridPointStep E yf ty strike exDate today u q r v⟩

/-- An engine whose pricing calls may exit abnormally, for examining the
probes' behaviour when an evaluation fails mid-probe. -/
structure FallibleEngine where
  npv : MarketState → Option ℚ
  delta : MarketState → Option ℚ

/-- The perturbation probes of lines 152-188 with fallible pricing calls:
each statement runs in order, and an abnormal exit of a pricing call
propagates immediately, skipping every later statement of the probe
sequence, including the restoring setValue calls.  Returns the estimates
(or none on abnormal exit) together with the market state as left behind. -/
def runProbesF (E : FallibleEngine) (yf : ℤ → ℤ → ℚ) (today : ℤ)
    (u q r v : ℚ) : Option GreekSet × MarketState :=
  let s0 : MarketState := ⟨u, q, r, v, today⟩
  let du := u * (1/10000)
  let s1 := setSpot s0 (u + du)
  match E.npv s1 with
  | none => (none, s1)
  | some value_p =>
    match E.delta s1 with
    | none => (none, s1)
    | some delta_p =>
      let s2 := setSpot s1 (u - du)
      match E.npv s2 with
      | none => (none, s2)
      | some value_m =>
        match E.delta s2 with
        | none => (none, s2)
        | some delta_m =>
          let s3 := setSpot s2 u
          let dr := r * (1/10000)
          let s4 := setR s3 (r + dr)
          match E.npv s4 with
          | none => (none, s4)
          | some rvalue_p =>
            let s5 := setR s4 (r - dr)
            match E.npv s5 with
            | none => (none, s5)
            | some rvalue_m =>
              let s6 := setR s5 r
              let dv := v * (1/10000)
              let s7 := setV s6 (v + dv)
              match E.npv s7 with
              | none => (none, s7)
              | some vvalue_p =>
                let s8 := setV s7 (v - dv)
                match E.npv s8 with
                | none => (none, s8)
                | some vvalue_m =>
                  let s9 := setV s8 v
                  let dT := yf (today - 1) (today + 1)
                  let s10 := setEvalDate s9 (today - 1)
                  match E.npv s10 with
                  | none => (none, s10)
                  | some tvalue_m =>
                    let s11 := setEvalDate s10 (today + 1)
                    match E.npv s11 with
                    | none => (none, s11)
                    | some tvalue_p =>
                      let s12 := setEvalDate s11 today
                      (some ⟨(value_p - value_m) / (2 * du),
                             (delta_p - delta_m) / (2 * du),
                             (tvalue_p - tvalue_m) / dT,
                             (rvalue_p - rvalue_m) / (2 * dr),
                             (vvalue_p - vvalue_m) / (2 * dv)⟩, s12)

/-- A trivial year-fraction function for concrete instantiations. -/
def yfOne : ℤ → ℤ → ℚ := fun _ _ => 1

/-- A constant engine whose value sits exactly on the guard threshold at
spot 100. -/
def constEngine : Engine :=
  ⟨fun _ => 1/1000, fun _ => 0, fun _ => 0, fun _ => 0, fun _ => 0, fun _ => 0⟩

/-- A constant engine whose value clears the guard at spot 100. -/
def bigEngine : Engine :=
  ⟨fun _ => 10, fun _ => 0, fun _ => 0, fun _ => 0, fun _ => 0, fun _ => 0⟩

/-- A fallible engine that succeeds on every call. -/
def alwaysOne : FallibleEngine := ⟨fun _ => some 1, fun _ => some 1⟩

/-- A fallible engine whose pricing call exits abnormally as soon as the
spot moves off 100: its first bumped-spot NPV call fails. -/
def failOffBase : FallibleEngine :=
  ⟨fun s => if s.spot = 100 then some 1 else none,
   fun s => if s.spot = 100 then some 1 else none⟩

/-- Concrete three-month shift for instantiations. -/
def add3M0 : ℤ → ℤ := fun d => d + 90

/-- Concrete six-month shift for instantiations. -/
def add6M0 : ℤ → ℤ := fun d => d + 180

/-- Concrete length-to-maturity shift for instantiations. -/
def addBase0 : ℤ → ℤ → ℤ := fun d n => d + 360 * n

/-- A constant engine family for instantiations. -/
def constFam : OptionType → ℚ → ℤ → List (ℤ × ℚ) → Engine :=
  fun _ _ _ _ => constEngine

/-! Helper lemmas about the comparator and the sweep. -/

/-- Each of the five greek names carries the tolerance 1.0e-5. -/
lemma tolerance_get_eq {name : String} (h : name ∈ greekNames) :
    tolerance.get name = 1/100000 := by
  simp only [greekNames, List.mem_cons, List.not_mem_nil, or_false] at h
  rcases h with rfl | rfl | rfl | rfl | rfl <;> rfl

/-- Membership in one comparison-loop iteration's output. -/
lemma mem_checkGreek {ty : OptionType} {strike u q r : ℚ} {today maturity : ℤ}
    {v : ℚ} {es cs : GreekSet} {name : String} {f : Failure} :
    f ∈ checkGreek ty strike u q r today maturity v es cs name ↔
      relativeError (es.get name) (cs.get name) u > tolerance.get name ∧
      f = reportFailure ty strike u q r today maturity v name (es.get name) (cs.get name)
            (relativeError (es.get name) (cs.get name) u) (tolerance.get name) := by
  simp only [checkGreek]
  split
  next h => simp [h]
  next h => simp [h]

/-- Membership in the comparison loop's collected failures. -/
lemma mem_compareGreeks {ty : OptionType} {strike u q r : ℚ} {today maturity : ℤ}
    {v : ℚ} {es cs : GreekSet} {f : Failure} :
    f ∈ compareGreeks ty strike u q r today maturity v es cs ↔
      ∃ name ∈ greekNames,
        relativeError (es.get name) (cs.get name) u > tolerance.get name ∧
        f = reportFailure ty strike u q r today maturity v name (es.get name) (cs.get name)
              (relativeError (es.get name) (cs.get name) u) (tolerance.get name) := by
  simp only [compareGreeks, List.mem_flatMap, mem_checkGreek]

/-- Iterating a strictly advancing date shift never moves backwards. -/
lemma iterate_lt {f : ℤ → ℤ} (hf : ∀ d, d < f d) : ∀ (i : ℕ) (d : ℤ), d ≤ f^[i] d := by
  intro i
  induction i with
  | zero => intro d; simp
  | succ n ih =>
    intro d
    rw [Function.iterate_succ_apply]
    exact le_trans (le_of_lt (hf d)) (ih (f d))

/-- With enough fuel, the dividend-date loop produces exactly the chain of
six-month steps that land strictly before the exercise date. -/
lemma divDatesAux_mem (add6M : ℤ → ℤ) (hf : ∀ d, d < add6M d) (exDate : ℤ) :
    ∀ (fuel : ℕ) (d : ℤ), (exDate - d).toNat ≤ fuel →
      ∀ x, x ∈ divDatesAux add6M exDate fuel d ↔
        ∃ i : ℕ, x = add6M^[i] d ∧ x < exDate := by
  intro fuel
  induction fuel with
  | zero =>
    intro d hfuel x
    simp only [divDatesAux, List.not_mem_nil, false_iff]
    rintro ⟨i, rfl, hx⟩
    have hid := iterate_lt hf i d
    omega
  | succ n ih =>
    intro d hfuel x
    simp only [divDatesAux]
    by_cases hd : d < exDate
    · rw [if_pos hd]
      simp only [List.mem_cons]
      constructor
      · rintro (rfl | hx)
        · exact ⟨0, rfl, hd⟩
        · have hfuel' : (exDate - add6M d).toNat ≤ n := by
            have := hf d
            omega
          obtain ⟨i, rfl, hlt⟩ := (ih (add6M d) hfuel' x).mp hx
          exact ⟨i + 1, (Function.iterate_succ_apply add6M i d).symm, hlt⟩
      · rintro ⟨i, rfl, hlt⟩
        cases i with
        | zero => exact Or.inl rfl
        | succ j =>
          right
          have hfuel' : (exDate - add6M d).toNat ≤ n := by
            have := hf d
            omega
          refine (ih (add6M d) hfuel' _).mpr ⟨j, ?_, hlt⟩
          exact Function.iterate_succ_apply add6M j d
    · rw [if_neg hd]
      simp only [List.not_mem_nil, false_iff]
      rintro ⟨i, rfl, hx⟩
      have hid := iterate_lt hf i d
      omega

/-- Membership in the sweep's outcome list: exactly one outcome per choice
of type, strike, length, underlying, dividend yield, rate and volatility. -/
lemma mem_testGreeks {Efam : OptionType → ℚ → ℤ → List (ℤ × ℚ) → Engine}
    {yf : ℤ → ℤ → ℚ} {today : ℤ} {addBase : ℤ → ℤ → ℤ} {add3M add6M : ℤ → ℤ}
    {o : GridOutcome} :
    o ∈ testGreeks Efam yf today addBase add3M add6M ↔
      ∃ ty ∈ types, ∃ strike ∈ strikes, ∃ len ∈ lengths, ∃ u ∈ underlyings,
        ∃ q ∈ qRates, ∃ r ∈ rRates, ∃ v ∈ vols,
          o = ⟨ty, strike, len, u, q, r, v,
               gridPointStep
                 (Efam ty strike (addBase today len)
                   (dividendSchedule add3M add6M today (addBase today len)))
                 yf ty strike (addBase today len) today u q r v⟩ := by
  constructor
  · intro ho
    simp only [testGreeks, List.mem_flatMap, List.mem_map] at ho
    obtain ⟨ty, hty, strike, hK, len, hlen, u, hu, q, hq, r, hr, v, hv, rfl⟩ := ho
    exact ⟨ty, hty, strike, hK, len, hlen, u, hu, q, hq, r, hr, v, hv, rfl⟩
  · rintro ⟨ty, hty, strike, hK, len, hlen, u, hu, q, hq, r, hr, v, hv, rfl⟩
    simp only [testGreeks, List.mem_flatMap, List.mem_map]
    exact ⟨ty, hty, strike, hK, len, hlen, u, hu, q, hq, r, hr, v, hv, rfl⟩

/-- Every failure a grid point records is a tolerance violation carrying
the full structured data of that grid point. -/
lemma gridPointStep_failure_fields {E : Engine} {yf : ℤ → ℤ → ℚ} {ty : OptionType}
    {strike : ℚ} {maturity today : ℤ} {u q r v : ℚ} {f : Failure}
    (hf : f ∈ (gridPointStep E yf ty strike maturity today u q r v).failures) :
    f.error > f.tol ∧ f.tol = 1/100000 ∧ f.greekName ∈ greekNames
    ∧ f.ty = ty ∧ f.strike = strike ∧ f.spot = u ∧ f.q = q ∧ f.r = r
    ∧ f.today = today ∧ f.maturity = maturity ∧ f.v = v
    ∧ f.error = relativeError f.expected f.calculated u := by
  simp only [gridPointStep, setSpot, setR, setV, setEvalDate] at hf
  split at hf
  next h =>
    rw [mem_compareGreeks] at hf
    obtain ⟨name, hname, hcond, rfl⟩ := hf
    exact ⟨hcond, tolerance_get_eq hname, hname, rfl, rfl, rfl, rfl, rfl, rfl, rfl, rfl, rfl⟩
  next h =>
    exact absurd hf (by simp)

/-! The claims. -/

/-- C1: for every non-skipped grid point, the finite-difference gamma
estimate is computed from the analytic delta evaluated at the two bumped
spots, not from a second difference of values: with du = spot * 1e-4,
gamma_est = (delta(spot+du) - delta(spot-du)) / (2*du). -/
theorem gamma_estimate_from_analytic_delta (E : Engine) (yf : ℤ → ℤ → ℚ)
    (ty : OptionType) (strike : ℚ) (maturity today : ℤ) (u q r v : ℚ)
    (h : E.npv ⟨u, q, r, v, today⟩ > u * (1/100000)) :
    Option.map GreekSet.gamma (gridPointStep E yf ty strike maturity today u q r v).expected =
      some ((E.delta ⟨u + u * (1/10000), q, r, v, today⟩
             - E.delta ⟨u - u * (1/10000), q, r, v, today⟩) / (2 * (u * (1/10000)))) := by
  simp only [gridPointStep, setSpot, setR, setV, setEvalDate]
  rw [if_pos h]
  rfl

/-- Witness for C1 at a concrete engine and grid point. -/
theorem gamma_estimate_from_analytic_delta_witness :
    bigEngine.npv ⟨100, 0, 1/100, 1/5, 0⟩ > 100 * (1/100000)
    ∧ Option.map GreekSet.gamma
        (gridPointStep bigEngine yfOne OptionType.call 100 360 0 100 0 (1/100) (1/5)).expected =
      some ((bigEngine.delta ⟨100 + 100 * (1/10000), 0, 1/100, 1/5, 0⟩
             - bigEngine.delta ⟨100 - 100 * (1/10000), 0, 1/100, 1/5, 0⟩)
              / (2 * (100 * (1/10000)))) :=
  ⟨by norm_num [bigEngine],
   gamma_estimate_from_analytic_delta bigEngine yfOne OptionType.call 100 360 0 100 0 (1/100)
     (1/5) (by norm_num [bigEngine])⟩

/-- C3: for every non-skipped grid point, the theta estimate moves the
valuation date backward and forward by exactly one day and equals
(V(date+1) - V(date-1)) / yearFraction(date-1, date+1), with the
valuation date restored to its original value afterwards. -/
theorem theta_estimate_one_day_date_bump (E : Engine) (yf : ℤ → ℤ → ℚ)
    (ty : OptionType) (strike : ℚ) (maturity today : ℤ) (u q r v : ℚ)
    (h : E.npv ⟨u, q, r, v, today⟩ > u * (1/100000)) :
    Option.map GreekSet.theta (gridPointStep E yf ty strike maturity today u q r v).expected =
      some ((E.npv ⟨u, q, r, v, today + 1⟩ - E.npv ⟨u, q, r, v, today - 1⟩)
              / yf (today - 1) (today + 1))
    ∧ (gridPointStep E yf ty strike maturity today u q r v).finalState.evalDate = today := by
  simp only [gridPointStep, setSpot, setR, setV, setEvalDate]
  rw [if_pos h]
  exact ⟨rfl, rfl⟩

/-- Witness for C3 at a concrete engine and grid point. -/
theorem theta_estimate_one_day_date_bump_witness :
    bigEngine.npv ⟨100, 0, 1/100, 1/5, 0⟩ > 100 * (1/100000)
    ∧ (Option.map GreekSet.theta
        (gridPointStep bigEngine yfOne OptionType.call 100 360 0 100 0 (1/100) (1/5)).expected =
      some ((bigEngine.npv ⟨100, 0, 1/100, 1/5, 0 + 1⟩ - bigEngine.npv ⟨100, 0, 1/100, 1/5, 0 - 1⟩)
              / yfOne (0 - 1) (0 + 1))
    ∧ (gridPointStep bigEngine yfOne OptionType.call 100 360 0 100 0 (1/100) (1/5)).finalState.evalDate
        = 0) :=
  ⟨by norm_num [bigEngine],
   theta_estimate_one_day_date_bump bigEngine yfOne OptionType.call 100 360 0 100 0 (1/100) (1/5)
     (by norm_num [bigEngine])⟩

/-- C5: for every non-skipped grid point, the delta, rho and vega
estimates are central differences of the value with multiplicative bumps:
du = spot * 1e-4, dr = r * 1e-4, dv = v * 1e-4. -/
theorem delta_rho_vega_central_difference_estimates (E : Engine) (yf : ℤ → ℤ → ℚ)
    (ty : OptionType) (strike : ℚ) (maturity today : ℤ) (u q r v : ℚ)
    (h : E.npv ⟨u, q, r, v, today⟩ > u * (1/100000)) :
    Option.map GreekSet.delta (gridPointStep E yf ty strike maturity today u q r v).expected =
      some ((E.npv ⟨u + u * (1/10000), q, r, v, today⟩
             - E.npv ⟨u - u * (1/10000), q, r, v, today⟩) / (2 * (u * (1/10000))))
    ∧ Option.map GreekSet.rho (gridPointStep E yf ty strike maturity today u q r v).expected =
      some ((E.npv ⟨u, q, r + r * (1/10000), v, today⟩
             - E.npv ⟨u, q, r - r * (1/10000), v, today⟩) / (2 * (r * (1/10000))))
    ∧ Option.map GreekSet.vega (gridPointStep E yf ty strike maturity today u q r v).expected =
      some ((E.npv ⟨u, q, r, v + v * (1/10000), today⟩
             - E.npv ⟨u, q, r, v - v * (1/10000), today⟩) / (2 * (v * (1/10000)))) := by
  simp only [gridPointStep, setSpot, setR, setV, setEvalDate]
  rw [if_pos h]
  exact ⟨rfl, rfl, rfl⟩

/-- Witness for C5 at a concrete engine and grid point. -/
theorem delta_rho_vega_central_difference_estimates_witness :
    bigEngine.npv ⟨100, 0, 1/100, 1/5, 0⟩ > 100 * (1/100000)
    ∧ (Option.map GreekSet.delta
        (gridPointStep bigEngine yfOne OptionType.call 100 360 0 100 0 (1/100) (1/5)).expected =
      some ((bigEngine.npv ⟨100 + 100 * (1/10000), 0, 1/100, 1/5, 0⟩
             - bigEngine.npv ⟨100 - 100 * (1/10000), 0, 1/100, 1/5, 0⟩)
              / (2 * (100 * (1/10000))))
    ∧ Option.map GreekSet.rho
        (gridPointStep bigEngine yfOne OptionType.call 100 360 0 100 0 (1/100) (1/5)).expected =
      some ((bigEngine.npv ⟨100, 0, 1/100 + (1/100) * (1/10000), 1/5, 0⟩
             - bigEngine.npv ⟨100, 0, 1/100 - (1/100) * (1/10000), 1/5, 0⟩)
              / (2 * ((1/100) * (1/10000))))
    ∧ Option.map GreekSet.vega
        (gridPointStep bigEngine yfOne OptionType.call 100 360 0 100 0 (1/100) (1/5)).expected =
      some ((bigEngine.npv ⟨100, 0, 1/100, 1/5 + (1/5) * (1/10000), 0⟩
             - bigEngine.npv ⟨100, 0, 1/100, 1/5 - (1/5) * (1/10000), 0⟩)
              / (2 * ((1/5) * (1/10000))))) :=
  ⟨by norm_num [bigEngine],
   delta_rho_vega_central_difference_estimates bigEngine yfOne OptionType.call 100 360 0 100 0
     (1/100) (1/5) (by norm_num [bigEngine])⟩

/-- C4 counterexample: a grid point whose base value equals spot * 1e-5
exactly is NOT smaller than the threshold, yet the comparison is skipped
(the guard at line 150 is a strict greater-than). -/
theorem guard_boundary_counterexample :
    constEngine.npv ⟨100, 0, 1/100, 1/5, 0⟩ = 100 * (1/100000)
    ∧ (gridPointStep constEngine yfOne OptionType.call 100 360 0 100 0 (1/100) (1/5)).expected
        = none := by
  refine ⟨by norm_num [constEngine], ?_⟩
  simp only [gridPointStep]
  rw [if_neg (by norm_num [constEngine])]

/-- C4 amended: the finite-difference comparison (all probes and all
per-greek checks) is skipped exactly when the base analytic value is less
than or equal to spot * 1e-5; it is performed exactly when the value
strictly exceeds that threshold. -/
theorem guard_skips_iff_value_at_most_threshold (E : Engine) (yf : ℤ → ℤ → ℚ)
    (ty : OptionType) (strike : ℚ) (maturity today : ℤ) (u q r v : ℚ) :
    ((gridPointStep E yf ty strike maturity today u q r v).expected = none
      ∧ (gridPointStep E yf ty strike maturity today u q r v).failures = []
      ∧ (gridPointStep E yf ty strike maturity today u q r v).trace = baseCalls ⟨u, q, r, v, today⟩)
    ↔ E.npv ⟨u, q, r, v, today⟩ ≤ u * (1/100000) := by
  simp only [gridPointStep, setSpot, setR, setV, setEvalDate]
  split
  next h =>
    constructor
    · rintro ⟨h1, -, -⟩
      exact absurd h1 (by simp)
    · intro hle
      exact absurd h (not_lt.mpr hle)
  next h =>
    exact ⟨fun _ => not_lt.mp h, fun _ => ⟨rfl, rfl, rfl⟩⟩

/-- Witness for the amended C4 at a concrete engine and grid point. -/
theorem guard_skips_iff_value_at_most_threshold_witness :
    ((gridPointStep constEngine yfOne OptionType.call 100 360 0 100 0 (1/100) (1/5)).expected = none
      ∧ (gridPointStep constEngine yfOne OptionType.call 100 360 0 100 0 (1/100) (1/5)).failures = []
      ∧ (gridPointStep constEngine yfOne OptionType.call 100 360 0 100 0 (1/100) (1/5)).trace
          = baseCalls ⟨100, 0, 1/100, 1/5, 0⟩)
    ↔ constEngine.npv ⟨100, 0, 1/100, 1/5, 0⟩ ≤ 100 * (1/100000) :=
  guard_skips_iff_value_at_most_threshold constEngine yfOne OptionType.call 100 360 0 100 0
    (1/100) (1/5)

/-- C6: after every perturbation probe the perturbed field is restored by
writing back the exact original stored value, so pricing the restored
state reproduces exactly the value priced before the perturbation, and a
grid point leaves the market state exactly as it found it (no residual
drift across grid iterations). -/
theorem perturbation_restore_round_trip (E : Engine) (yf : ℤ → ℤ → ℚ)
    (ty : OptionType) (strike : ℚ) (maturity today : ℤ) (u q r v : ℚ)
    (s : MarketState) (x : ℚ) (d : ℤ) :
    E.npv (setSpot (setSpot s x) s.spot) = E.npv s
    ∧ E.npv (setR (setR s x) s.r) = E.npv s
    ∧ E.npv (setV (setV s x) s.v) = E.npv s
    ∧ E.npv (setEvalDate (setEvalDate s d) s.evalDate) = E.npv s
    ∧ (gridPointStep E yf ty strike maturity today u q r v).finalState = ⟨u, q, r, v, today⟩ := by
  refine ⟨?_, ?_, ?_, ?_, ?_⟩
  · cases s; rfl
  · cases s; rfl
  · cases s; rfl
  · cases s; rfl
  · simp only [gridPointStep, setSpot, setR, setV, setEvalDate]
    split <;> rfl

/-- C7 counterexample: when the first bumped-spot pricing call exits
abnormally, the probe does NOT return the spot to its saved original
value; the state keeps the bumped spot. -/
theorem failed_probe_leaves_spot_bumped :
    (runProbesF failOffBase yfOne 0 100 0 (1/100) (1/5)).1 = none
    ∧ (runProbesF failOffBase yfOne 0 100 0 (1/100) (1/5)).2.spot = 100 + 100 * (1/10000)
    ∧ ¬ (runProbesF failOffBase yfOne 0 100 0 (1/100) (1/5)).2.spot = 100 := by
  have hs : failOffBase.npv ⟨100 + 100 * (1/10000), 0, 1/100, 1/5, 0⟩ = none := by
    simp only [failOffBase]
    norm_num
  simp only [runProbesF, setSpot, hs]
  norm_num

/-- C7 amended: a probe restores the original values only on the success
path: when every pricing call returns normally the final state equals the
original state, but when a pricing call exits abnormally the remaining
statements (including the restoring writes) do not run, so the perturbed
field keeps its perturbed value and the sweep is abandoned; in
particular, if the first bumped-spot pricing call fails, the state keeps
spot = u + du. -/
theorem probe_restore_only_on_success (E : FallibleEngine) (yf : ℤ → ℤ → ℚ)
    (today : ℤ) (u q r v : ℚ) :
    (∀ gs, (runProbesF E yf today u q r v).1 = some gs →
        (runProbesF E yf today u q r v).2 = ⟨u, q, r, v, today⟩)
    ∧ (E.npv (setSpot ⟨u, q, r, v, today⟩ (u + u * (1/10000))) = none →
        (runProbesF E yf today u q r v).2 = setSpot ⟨u, q, r, v, today⟩ (u + u * (1/10000))) := by
  constructor
  · intro gs hgs
    simp only [runProbesF] at hgs ⊢
    repeat' split at hgs
    all_goals simp_all [setSpot, setR, setV, setEvalDate]
  · intro hn
    simp only [runProbesF, hn]

/-- Witness for the amended C7: a fully succeeding probe restores the
exact original state. -/
theorem probe_restore_only_on_success_witness :
    (runProbesF alwaysOne yfOne 0 100 0 (1/100) (1/5)).2 = ⟨100, 0, 1/100, 1/5, 0⟩ :=
  (probe_restore_only_on_success alwaysOne yfOne 0 100 0 (1/100) (1/5)).1 ⟨0, 0, 0, 0, 0⟩
    (by simp only [runProbesF, alwaysOne, setSpot, setR, setV, setEvalDate, yfOne]; norm_num)

/-- C8: the comparison error for each greek is the relative error of the
expected (finite-difference) value against the calculated (analytic)
value with the underlying spot level as scale, a failure is flagged
exactly when that error exceeds the per-greek tolerance 1e-5, and the
grid point's comparison is exactly this check applied to its estimates
and analytic greeks with scale u. -/
theorem relative_error_scale_and_tolerance_flag (E : Engine) (yf : ℤ → ℤ → ℚ)
    (ty : OptionType) (strike : ℚ) (maturity today : ℤ) (u q r v : ℚ)
    (es cs : GreekSet) (name : String)
    (hname : name ∈ greekNames)
    (hes : (gridPointStep E yf ty strike maturity today u q r v).expected = some es) :
    (gridPointStep E yf ty strike maturity today u q r v).failures
      = compareGreeks ty strike u q r today maturity v es
          (gridPointStep E yf ty strike maturity today u q r v).calculated
    ∧ tolerance.get name = 1/100000
    ∧ ((∃ f ∈ compareGreeks ty strike u q r today maturity v es cs, f.greekName = name)
        ↔ relativeError (es.get name) (cs.get name) u > 1/100000)
    ∧ ∀ f ∈ compareGreeks ty strike u q r today maturity v es cs, f.greekName = name →
        f.error = relativeError (es.get name) (cs.get name) u ∧ f.expected = es.get name
        ∧ f.calculated = cs.get name ∧ f.tol = 1/100000 := by
  have htol := tolerance_get_eq hname
  refine ⟨?_, htol, ?_, ?_⟩
  · simp only [gridPointStep, setSpot, setR, setV, setEvalDate] at hes ⊢
    split at hes
    next h =>
      rw [if_pos h]
      rw [Option.some.injEq] at hes
      rw [← hes]
    next h =>
      exact absurd hes (by simp)
  · constructor
    · rintro ⟨f, hf, hfname⟩
      rw [mem_compareGreeks] at hf
      obtain ⟨name', hname', hcond, rfl⟩ := hf
      simp only [reportFailure] at hfname
      subst hfname
      rwa [htol] at hcond
    · intro hgt
      refine ⟨reportFailure ty strike u q r today maturity v name (es.get name) (cs.get name)
                (relativeError (es.get name) (cs.get name) u) (tolerance.get name), ?_, rfl⟩
      rw [mem_compareGreeks]
      exact ⟨name, hname, by rwa [htol], rfl⟩
  · intro f hf hfname
    rw [mem_compareGreeks] at hf
    obtain ⟨name', hname', hcond, rfl⟩ := hf
    simp only [reportFailure] at hfname
    subst hfname
    exact ⟨rfl, rfl, rfl, tolerance_get_eq hname'⟩

/-- Witness for C8 at a concrete engine, grid point and greek name. -/
theorem relative_error_scale_and_tolerance_flag_witness :
    (gridPointStep bigEngine yfOne OptionType.call 100 360 0 100 0 (1/100) (1/5)).failures
      = compareGreeks OptionType.call 100 100 0 (1/100) 0 360 (1/5) ⟨0, 0, 0, 0, 0⟩
          (gridPointStep bigEngine yfOne OptionType.call 100 360 0 100 0 (1/100) (1/5)).calculated
    ∧ tolerance.get "delta" = 1/100000
    ∧ ((∃ f ∈ compareGreeks OptionType.call 100 100 0 (1/100) 0 360 (1/5)
            ⟨0, 0, 0, 0, 0⟩ ⟨0, 0, 0, 0, 0⟩, f.greekName = "delta")
        ↔ relativeError (GreekSet.get ⟨0, 0, 0, 0, 0⟩ "delta")
            (GreekSet.get ⟨0, 0, 0, 0, 0⟩ "delta") 100 > 1/100000)
    ∧ ∀ f ∈ compareGreeks OptionType.call 100 100 0 (1/100) 0 360 (1/5)
          ⟨0, 0, 0, 0, 0⟩ ⟨0, 0, 0, 0, 0⟩, f.greekName = "delta" →
        f.error = relativeError (GreekSet.get ⟨0, 0, 0, 0, 0⟩ "delta")
            (GreekSet.get ⟨0, 0, 0, 0, 0⟩ "delta") 100
        ∧ f.expected = GreekSet.get ⟨0, 0, 0, 0, 0⟩ "delta"
        ∧ f.calculated = GreekSet.get ⟨0, 0, 0, 0, 0⟩ "delta" ∧ f.tol = 1/100000 := by
  have hguard : bigEngine.npv ⟨100, 0, 1/100, 1/5, 0⟩ > 100 * (1/100000) := by
    norm_num [bigEngine]
  have hes : (gridPointStep bigEngine yfOne OptionType.call 100 360 0 100 0 (1/100) (1/5)).expected
      = some ⟨0, 0, 0, 0, 0⟩ := by
    simp only [gridPointStep, setSpot, setR, setV, setEvalDate]
    rw [if_pos hguard]
    simp only [bigEngine, yfOne]
    norm_num
  exact relative_error_scale_and_tolerance_flag bigEngine yfOne OptionType.call 100 360 0 100 0
    (1/100) (1/5) ⟨0, 0, 0, 0, 0⟩ ⟨0, 0, 0, 0, 0⟩ "delta" (by simp [greekNames]) hes

/-- C9: the dividend schedule places the fixed cash amount 5 at the dates
obtained by starting three months after the valuation date and stepping
six months, including every such date strictly before the maturity date
and excluding the maturity date and all later dates; every scheduled date
lies strictly between the valuation date and the maturity date. -/
theorem dividend_schedule_between_valuation_and_maturity (add3M add6M : ℤ → ℤ)
    (today exDate : ℤ) (h3 : today < add3M today) (h6 : ∀ d, d < add6M d) :
    (∀ p ∈ dividendSchedule add3M add6M today exDate, today < p.1 ∧ p.1 < exDate ∧ p.2 = 5)
    ∧ (∀ x : ℤ, (x, (5:ℚ)) ∈ dividendSchedule add3M add6M today exDate ↔
        ∃ i : ℕ, x = add6M^[i] (add3M today) ∧ x < exDate) := by
  have hmem : ∀ x, x ∈ dividendDates add3M add6M today exDate ↔
      ∃ i : ℕ, x = add6M^[i] (add3M today) ∧ x < exDate :=
    divDatesAux_mem add6M h6 exDate _ (add3M today) le_rfl
  constructor
  · intro p hp
    simp only [dividendSchedule, List.mem_map] at hp
    obtain ⟨d, hd, rfl⟩ := hp
    obtain ⟨i, rfl, hlt⟩ := (hmem d).mp hd
    have hge := iterate_lt h6 i (add3M today)
    exact ⟨by omega, hlt, rfl⟩
  · intro x
    simp only [dividendSchedule, List.mem_map, Prod.mk.injEq]
    constructor
    · rintro ⟨d, hd, rfl, -⟩
      exact (hmem d).mp hd
    · intro hx
      exact ⟨x, (hmem x).mpr hx, rfl, trivial⟩

/-- Witness for C9 with concrete strictly advancing date shifts. -/
theorem dividend_schedule_between_valuation_and_maturity_witness :
    (∀ p ∈ dividendSchedule add3M0 add6M0 0 360, (0:ℤ) < p.1 ∧ p.1 < 360 ∧ p.2 = 5)
    ∧ (∀ x : ℤ, (x, (5:ℚ)) ∈ dividendSchedule add3M0 add6M0 0 360 ↔
        ∃ i : ℕ, x = add6M0^[i] (add3M0 0) ∧ x < 360) :=
  dividend_schedule_between_valuation_and_maturity add3M0 add6M0 0 360
    (by norm_num [add3M0]) (fun d => by simp only [add6M0]; omega)

/-- C10: at every grid point the analytic value and all five analytic
greeks are computed unconditionally, before the near-degenerate guard is
tested (the first six engine evaluations are always made at the base
state); the guard only suppresses the finite-difference probes and the
comparisons, never the analytic evaluation. -/
theorem analytic_values_computed_unconditionally (E : Engine) (yf : ℤ → ℤ → ℚ)
    (ty : OptionType) (strike : ℚ) (maturity today : ℤ) (u q r v : ℚ) :
    (gridPointStep E yf ty strike maturity today u q r v).value = E.npv ⟨u, q, r, v, today⟩
    ∧ (gridPointStep E yf ty strike maturity today u q r v).calculated =
        ⟨E.delta ⟨u, q, r, v, today⟩, E.gamma ⟨u, q, r, v, today⟩, E.theta ⟨u, q, r, v, today⟩,
         E.rho ⟨u, q, r, v, today⟩, E.vega ⟨u, q, r, v, today⟩⟩
    ∧ (gridPointStep E yf ty strike maturity today u q r v).trace.take 6 =
        baseCalls ⟨u, q, r, v, today⟩
    ∧ (¬ E.npv ⟨u, q, r, v, today⟩ > u * (1/100000) →
        (gridPointStep E yf ty strike maturity today u q r v).trace = baseCalls ⟨u, q, r, v, today⟩
        ∧ (gridPointStep E yf ty strike maturity today u q r v).expected = none
        ∧ (gridPointStep E yf ty strike maturity today u q r v).failures = []) := by
  simp only [gridPointStep, setSpot, setR, setV, setEvalDate]
  split
  next h => exact ⟨rfl, rfl, rfl, fun hn => absurd h hn⟩
  next h => exact ⟨rfl, rfl, rfl, fun _ => ⟨rfl, rfl, rfl⟩⟩

/-- Witness for C10: at a grid point the guard rejects, the analytic
value and greeks are still present and only the probes are absent. -/
theorem analytic_values_computed_unconditionally_witness :
    (gridPointStep constEngine yfOne OptionType.call 100 360 0 100 0 (1/100) (1/5)).trace
      = baseCalls ⟨100, 0, 1/100, 1/5, 0⟩
    ∧ (gridPointStep constEngine yfOne OptionType.call 100 360 0 100 0 (1/100) (1/5)).expected
        = none
    ∧ (gridPointStep constEngine yfOne OptionType.call 100 360 0 100 0 (1/100) (1/5)).failures
        = [] :=
  (analytic_values_computed_unconditionally constEngine yfOne OptionType.call 100 360 0 100 0
    (1/100) (1/5)).2.2.2 (by norm_num [constEngine])

set_option maxRecDepth 8000 in
/-- C2: a tolerance violation does not abort the sweep: the sweep always
processes all 540 grid points, the sequence of visited grid coordinates
does not depend on the engine's values (hence not on which failures
occur), and every recorded failure is a structured record carrying the
grid point's option type, strike, spot, rates, dates, volatility, greek
name, expected and calculated values, error and tolerance.  The failure
reporter itself (BOOST_FAIL) is external and modelled from the spec as
record-and-continue. -/
theorem tolerance_violations_recorded_and_sweep_continues
    (Efam Efam' : OptionType → ℚ → ℤ → List (ℤ × ℚ) → Engine)
    (yf yf' : ℤ → ℤ → ℚ) (today : ℤ) (addBase : ℤ → ℤ → ℤ) (add3M add6M : ℤ → ℤ) :
    (testGreeks Efam yf today addBase add3M add6M).length = 540
    ∧ (testGreeks Efam yf today addBase add3M add6M).map GridOutcome.coord
        = (testGreeks Efam' yf' today addBase add3M add6M).map GridOutcome.coord
    ∧ ∀ o ∈ testGreeks Efam yf today addBase add3M add6M,
        ∀ f ∈ o.result.failures,
          f.error > f.tol ∧ f.tol = 1/100000 ∧ f.greekName ∈ greekNames
          ∧ f.ty = o.ty ∧ f.strike = o.strike ∧ f.spot = o.u ∧ f.q = o.q ∧ f.r = o.r
          ∧ f.today = today ∧ f.maturity = addBase today o.len ∧ f.v = o.v
          ∧ f.error = relativeError f.expected f.calculated o.u := by
  refine ⟨?_, ?_, ?_⟩
  · simp only [testGreeks, List.length_flatMap, List.map_map, List.length_map]
    norm_num [types, strikes, lengths, underlyings, qRates, rRates, vols]
  · simp only [testGreeks, List.map_flatMap, List.map_map, Function.comp_def, GridOutcome.coord]
  · intro o ho f hf
    rw [mem_testGreeks] at ho
    obtain ⟨ty, hty, strike, hK, len, hlen, u, hu, q, hq, r, hr, v, hv, rfl⟩ := ho
    exact gridPointStep_failure_fields hf

/-- Witness for C2: the sweep with a concrete engine family visits all
540 grid points. -/
theorem tolerance_violations_recorded_and_sweep_continues_witness :
    (testGreeks constFam yfOne 0 addBase0 add3M0 add6M0).length = 540 :=
  (tolerance_violations_recorded_and_sweep_continues constFam constFam yfOne yfOne 0 addBase0
    add3M0 add6M0).1
